import Mathlib

/-!
Verification of the grounding-data question generator.

The Python source is embedded shallowly:

* floating-point coordinates become rationals (`ℚ`);
* the ambient / seeded pseudorandom generators become an explicit trace of
  draws (`Trace`, a list of rationals).  Each call of a randomness primitive
  (`random.random`, `random.uniform`, `random.randint`, `random.choice`)
  consumes one element of the trace; `random.sample(l, k)` and
  `random.shuffle` consume one element per selected position (selection with
  removal, which reaches exactly the outcomes the library primitives can
  produce, deterministically in the trace);
* the unbounded rejection / retry loops of the source receive an explicit
  fuel parameter and return `Option`, `none` meaning that the bounded budget
  did not suffice (the source would still be looping).
-/

namespace Grounding

/-- A trace of pseudorandom draws: the values produced by the underlying
generator, consumed left to right.  A missing element is read as `0`. -/
abbrev Trace := List ℚ

/-- Consume one raw draw from the trace. -/
def takeDraw (t : Trace) : ℚ × Trace := (t.headD 0, t.tail)

/-- Clamp a rational into `[lo, hi]`. -/
def clampQ (lo hi q : ℚ) : ℚ := max lo (min hi q)

/-- `random.uniform(lo, hi)`: one draw, interpreted as a value in `[lo, hi]`. -/
def drawUniform (lo hi : ℚ) (t : Trace) : ℚ × Trace :=
  (clampQ lo hi (takeDraw t).1, (takeDraw t).2)

/-- `random.random()`: one draw in the unit interval. -/
def drawUnit (t : Trace) : ℚ × Trace := drawUniform 0 1 t

/-- Draw an index below `n` (used for `random.choice` / `random.sample`). -/
def drawIdx (n : ℕ) (t : Trace) : ℕ × Trace :=
  ((takeDraw t).1.floor.toNat % n, (takeDraw t).2)

/-- `random.randint(a, b)`: one draw, interpreted as an integer in `[a, b]`. -/
def drawInt (a b : ℕ) (t : Trace) : ℕ × Trace :=
  (a + (takeDraw t).1.floor.toNat % (b - a + 1), (takeDraw t).2)

/-- `random.sample(l, k)`: `k` draws, each picking one remaining element
(selection without replacement, in selection order). -/
def sampleList {α : Type} : ℕ → List α → Trace → List α × Trace
  | 0, _, t => ([], t)
  | _ + 1, [], t => ([], t)
  | k + 1, x :: xs, t =>
    let s := drawIdx (x :: xs).length t
    let picked := (x :: xs).getD s.1 x
    let rest := (x :: xs).eraseIdx s.1
    let more := sampleList k rest s.2
    (picked :: more.1, more.2)

/-- `random.shuffle(l)`: a full sample of the list, giving a permutation. -/
def shuffleList {α : Type} (l : List α) (t : Trace) : List α × Trace :=
  sampleList l.length l t

/-- `random.choice(l)`: one draw selecting an element (`none` on the empty
list, where the library raises). -/
def choiceList {α : Type} : List α → Trace → Option α × Trace
  | [], t => (none, t)
  | x :: xs, t =>
    let s := drawIdx (x :: xs).length t
    (some ((x :: xs).getD s.1 x), s.2)

/-- A bounding box `[x1, y1, x2, y2]` from `src/grounding/utils/bbox.py`. -/
structure Bbox where
  x1 : ℚ
  y1 : ℚ
  x2 : ℚ
  y2 : ℚ
deriving DecidableEq

/-- Python's `round(q, 3)`: round to 3 decimal places. -/
def round3 (q : ℚ) : ℚ := ((round (q * 1000) : ℤ) : ℚ) / 1000

/-- `in_box(bbox, larger_bbox)` from `src/grounding/utils/bbox.py`:
containment of `b` inside `larger`. -/
def in_box (b larger : Bbox) : Bool :=
  decide (larger.x1 ≤ b.x1) && decide (larger.y1 ≤ b.y1) &&
    decide (b.x2 ≤ larger.x2) && decide (b.y2 ≤ larger.y2)

/-- Area of a box, `(x2 - x1) * (y2 - y1)`. -/
def area (b : Bbox) : ℚ := (b.x2 - b.x1) * (b.y2 - b.y1)

/-- One coordinate after `max(0, min(1, round(coord, 3)))`. -/
def clampRound (v : ℚ) : ℚ := max 0 (min 1 (round3 v))

/-- The smaller of two coordinates after the inversion swap. -/
def swapLo (u v : ℚ) : ℚ := if v < u then v else u

/-- The larger of two coordinates after the inversion swap. -/
def swapHi (u v : ℚ) : ℚ := if v < u then u else v

/-- The coordinate post-processing of `random_bbox`: round to 3 decimals,
clamp into `[0, 1]`, then swap the x's (resp. y's) if inverted. -/
def normBbox (a b c d : ℚ) : Bbox :=
  ⟨swapLo (clampRound a) (clampRound c), swapLo (clampRound b) (clampRound d),
   swapHi (clampRound a) (clampRound c), swapHi (clampRound b) (clampRound d)⟩

/-- The rejection test of `random_bbox`: too small, too large, nested inside
the original, or containing the original. -/
def rejectBbox (b orig : Bbox) : Bool :=
  decide (area b < 1 / 100) || decide (area b > 9 / 10) ||
    in_box b orig || in_box orig b

/-- Raw coordinates of a `random_bbox` attempt in one of the two jitter
branches: each coordinate of the original is perturbed by a uniform draw in
`[lo, hi]`, then everything is normalized. -/
def jitterRaw (lo hi : ℚ) (orig : Bbox) (t : Trace) : Bbox × Trace :=
  let d1 := drawUniform lo hi t
  let d2 := drawUniform lo hi d1.2
  let d3 := drawUniform lo hi d2.2
  let d4 := drawUniform lo hi d3.2
  (normBbox (orig.x1 + d1.1) (orig.y1 + d2.1) (orig.x2 + d3.1)
    (orig.y2 + d4.1), d4.2)

/-- Raw coordinates of a `random_bbox` attempt in the uniform-resample
branch: four fresh uniform draws in `[0, 1]`, then normalization. -/
def freshRaw (t : Trace) : Bbox × Trace :=
  let c1 := drawUniform 0 1 t
  let c2 := drawUniform 0 1 c1.2
  let c3 := drawUniform 0 1 c2.2
  let c4 := drawUniform 0 1 c3.2
  (normBbox c1.1 c2.1 c3.1 c4.1, c4.2)

/-- One attempt of `random_bbox`: pick a perturbation mode by one unit draw
(cumulative weights 0.6 / 0.9 / 1.0), build the raw coordinates, then
normalize. -/
def randomBboxStep (orig : Bbox) (t : Trace) : Bbox × Trace :=
  if (drawUnit t).1 < 3 / 5 then jitterRaw (-1 / 10) (1 / 10) orig (drawUnit t).2
  else if (drawUnit t).1 < 9 / 10 then jitterRaw (-3 / 10) (3 / 10) orig (drawUnit t).2
  else freshRaw (drawUnit t).2

/-- `random_bbox(original_bbox)` from `src/grounding/utils/bbox.py`.  The
source retries by unbounded recursion whenever the candidate is rejected; the
embedding spends one unit of fuel per attempt and returns `none` when the
fuel runs out while the source would still be retrying. -/
def randomBbox : ℕ → Bbox → Trace → Option Bbox × Trace
  | 0, _, t => (none, t)
  | fuel + 1, orig, t =>
    if rejectBbox (randomBboxStep orig t).1 orig then
      randomBbox fuel orig (randomBboxStep orig t).2
    else
      (some (randomBboxStep orig t).1, (randomBboxStep orig t).2)

lemma clampRound_nonneg (v : ℚ) : 0 ≤ clampRound v := le_max_left _ _

lemma clampRound_le_one (v : ℚ) : clampRound v ≤ 1 :=
  max_le (by norm_num) (min_le_left _ _)

lemma swapLo_le_swapHi (u v : ℚ) : swapLo u v ≤ swapHi u v := by
  unfold swapLo swapHi
  split
  · exact le_of_lt (by assumption)
  · exact le_of_not_lt (by assumption)

lemma swapLo_mem (u v : ℚ) : swapLo u v = u ∨ swapLo u v = v := by
  unfold swapLo; split
  · exact Or.inr rfl
  · exact Or.inl rfl

lemma swapHi_mem (u v : ℚ) : swapHi u v = u ∨ swapHi u v = v := by
  unfold swapHi; split
  · exact Or.inl rfl
  · exact Or.inr rfl

lemma normBbox_bounds (a b c d : ℚ) :
    0 ≤ (normBbox a b c d).x1 ∧ (normBbox a b c d).x1 ≤ (normBbox a b c d).x2 ∧
    (normBbox a b c d).x2 ≤ 1 ∧ 0 ≤ (normBbox a b c d).y1 ∧
    (normBbox a b c d).y1 ≤ (normBbox a b c d).y2 ∧ (normBbox a b c d).y2 ≤ 1 := by
  unfold normBbox
  refine ⟨?_, swapLo_le_swapHi _ _, ?_, ?_, swapLo_le_swapHi _ _, ?_⟩
  · rcases swapLo_mem (clampRound a) (clampRound c) with h | h <;>
      simp only [h] <;> exact clampRound_nonneg _
  · rcases swapHi_mem (clampRound a) (clampRound c) with h | h <;>
      simp only [h] <;> exact clampRound_le_one _
  · rcases swapLo_mem (clampRound b) (clampRound d) with h | h <;>
      simp only [h] <;> exact clampRound_nonneg _
  · rcases swapHi_mem (clampRound b) (clampRound d) with h | h <;>
      simp only [h] <;> exact clampRound_le_one _

lemma jitterRaw_shape (lo hi : ℚ) (orig : Bbox) (t : Trace) :
    ∃ a b c d, (jitterRaw lo hi orig t).1 = normBbox a b c d :=
  ⟨_, _, _, _, rfl⟩

lemma freshRaw_shape (t : Trace) :
    ∃ a b c d, (freshRaw t).1 = normBbox a b c d :=
  ⟨_, _, _, _, rfl⟩

lemma randomBboxStep_shape (orig : Bbox) (t : Trace) :
    ∃ a b c d, (randomBboxStep orig t).1 = normBbox a b c d := by
  unfold randomBboxStep
  split
  · exact jitterRaw_shape _ _ _ _
  · split
    · exact jitterRaw_shape _ _ _ _
    · exact freshRaw_shape _

/-- C10: every box returned by `random_bbox` lies in `[0,1]^4` with ordered
coordinates, has area in `[0.01, 0.9]`, and is neither nested inside the
original box nor contains it (so it is in particular never equal to it). -/
theorem randomBbox_spec (fuel : ℕ) (orig : Bbox) (t t' : Trace) (b : Bbox)
    (h : randomBbox fuel orig t = (some b, t')) :
    0 ≤ b.x1 ∧ b.x1 ≤ b.x2 ∧ b.x2 ≤ 1 ∧
    0 ≤ b.y1 ∧ b.y1 ≤ b.y2 ∧ b.y2 ≤ 1 ∧
    1 / 100 ≤ area b ∧ area b ≤ 9 / 10 ∧
    in_box b orig = false ∧ in_box orig b = false := by
  induction fuel generalizing t with
  | zero => simp [randomBbox] at h
  | succ n ih =>
    rw [randomBbox] at h
    by_cases hr : rejectBbox (randomBboxStep orig t).1 orig
    · rw [if_pos hr] at h
      exact ih _ h
    · rw [if_neg hr] at h
      have hb : b = (randomBboxStep orig t).1 := by
        have := congrArg Prod.fst h
        simpa using this.symm
      subst hb
      obtain ⟨a, b', c, d, hshape⟩ := randomBboxStep_shape orig t
      have hbounds := normBbox_bounds a b' c d
      rw [← hshape] at hbounds
      have hrej : rejectBbox (randomBboxStep orig t).1 orig = false :=
        Bool.eq_false_iff.mpr hr
      unfold rejectBbox at hrej
      simp only [Bool.or_eq_false_iff, decide_eq_false_iff_not, not_lt] at hrej
      obtain ⟨⟨⟨h1, h2⟩, h3⟩, h4⟩ := hrej
      exact ⟨hbounds.1, hbounds.2.1, hbounds.2.2.1, hbounds.2.2.2.1,
        hbounds.2.2.2.2.1, hbounds.2.2.2.2.2, h1, by simpa using h2, h3, h4⟩

/-- The original box of the C10 witness run. -/
def bboxW : Bbox := ⟨1/5, 1/5, 2/5, 2/5⟩

/-- The box produced by the C10 witness run. -/
def bboxWOut : Bbox := ⟨1/20, 1/2, 1/2, 19/20⟩

/-- The trace of the C10 witness run: one accepted attempt through the
uniform-resample branch. -/
def traceW : Trace := [19/20, 1/20, 1/2, 1/2, 19/20]

/-- C10 witness: a concrete run of `random_bbox` that returns a box, together
with the guarantees obtained from `randomBbox_spec` at that box. -/
theorem randomBbox_spec_witness :
    randomBbox 1 bboxW traceW = (some bboxWOut, []) ∧
    (0 ≤ bboxWOut.x1 ∧ bboxWOut.x1 ≤ bboxWOut.x2 ∧ bboxWOut.x2 ≤ 1 ∧
     0 ≤ bboxWOut.y1 ∧ bboxWOut.y1 ≤ bboxWOut.y2 ∧ bboxWOut.y2 ≤ 1 ∧
     1 / 100 ≤ area bboxWOut ∧ area bboxWOut ≤ 9 / 10 ∧
     in_box bboxWOut bboxW = false ∧ in_box bboxW bboxWOut = false) :=
  ⟨by with_unfolding_all decide,
   randomBbox_spec 1 bboxW traceW [] bboxWOut (by with_unfolding_all decide)⟩

/-- `GroundingData` from `src/grounding/datasets/data.py`: one annotation
record.  The ordered dict `objs` becomes an ordered association list;
`num_objs` and `num_bbox` are stored fields of the validated record, not
recomputed from `objs`. -/
structure GroundingData where
  source_dataset : String
  source_id : String
  image : String
  objs : List (String × List Bbox)
  num_objs : ℤ
  num_bbox : ℤ
deriving DecidableEq

/-- `DetectSingleFormatter.check_eligible`: some label has exactly one box. -/
def checkEligibleSingle (d : GroundingData) : Bool :=
  d.objs.any (fun p => p.2.length == 1)

/-- `DetectMultiFormatter.check_eligible`: some label has more than one box,
or a 10% ambient random acceptance. -/
def checkEligibleMulti (d : GroundingData) (t : Trace) : Bool × Trace :=
  if d.objs.any (fun p => decide (1 < p.2.length)) then (true, t)
  else (decide ((drawUnit t).1 < 1 / 10), (drawUnit t).2)

/-- `DetectMultiObjectFormatter.check_eligible`: the stored `num_objs` field
is at least 2. -/
def checkEligibleMultiObject (d : GroundingData) : Bool :=
  decide (2 ≤ d.num_objs)

/-- The multi-category eligibility predicate as the specification words it:
the record has at least two labels that each carry at least one bounding
box. -/
def specMultiCategoryEligible (d : GroundingData) : Bool :=
  decide (2 ≤ (d.objs.filter (fun p => !p.2.isEmpty)).length)

/-- Each coordinate of a box rounded to 3 decimals (`_round_bbox`). -/
def roundBbox (b : Bbox) : Bbox :=
  ⟨round3 b.x1, round3 b.y1, round3 b.x2, round3 b.y2⟩

/-- `_signature` from `src/grounding/format/detect_multi_object_formatter.py`:
the entries with 3-decimal-rounded boxes, as a sorted tuple.  The sorted
tuple is used solely for equality and membership tests; equality of sorted
tuples is exactly multiset equality of the rounded entries, which the
embedding represents directly. -/
def signatureMultiObject (entries : List (String × Bbox)) :
    Multiset (String × Bbox) :=
  (entries.map (fun e => (e.1, roundBbox e.2)) : List (String × Bbox))

/-- `_signature` from `src/grounding/format/detect_multi_formatter.py`: the
raw tuple of the boxes in order — no sorting and no rounding, so equality of
these signatures is plain list equality. -/
def signatureMulti (bboxes : List Bbox) : List Bbox := bboxes

/-
The simple distractor synthesizer of `DetectSingleFormatter.format`
(`src/grounding/format/detect_single_formatter.py`), embedded up to the
`choices` list of boxes (the final `str()` rendering is dropped; it is
injective on the box lists, so duplicate boxes give duplicate choices).
-/

/-- The first loop of `DetectSingleFormatter.format`: split `objs` into the
single-box entries (label, its box) and the pooled boxes of all other
labels, in iteration order. -/
def splitSingles : List (String × List Bbox) → List (String × Bbox) × List Bbox
  | [] => ([], [])
  | (k, [b]) :: rest =>
    let s := splitSingles rest
    ((k, b) :: s.1, s.2)
  | (_, bs) :: rest =>
    let s := splitSingles rest
    (s.1, bs ++ s.2)

/-- The padding loop `while len(other_bboxes) < 8`: append `random_bbox`
results (each with its own retry fuel) until the pool has the requested
number of extra boxes. -/
def padOthers (rbFuel : ℕ) (orig : Bbox) :
    ℕ → List Bbox → Trace → Option (List Bbox) × Trace
  | 0, l, t => (some l, t)
  | n + 1, l, t =>
    match randomBbox rbFuel orig t with
    | (none, t2) => (none, t2)
    | (some b, t2) => padOthers rbFuel orig n (l ++ [b]) t2

/-- `DetectSingleFormatter.format`, restricted to the answer choices: the
target box followed by the 3 sampled distractor boxes (`choices[0]` is the
correct answer). -/
def detectSingleChoices (rbFuel : ℕ) (d : GroundingData) (t : Trace) :
    Option (List Bbox) × Trace :=
  match splitSingles d.objs with
  | ([], _) => (none, t)
  | (a :: rest, others0) =>
    let allSingle := a :: rest
    let s := drawIdx allSingle.length t
    let chosen := allSingle.getD s.1 a
    let others :=
      others0 ++ (allSingle.filter (fun p => p.1 != chosen.1)).map Prod.snd
    match padOthers rbFuel chosen.2 (8 - others.length) others s.2 with
    | (none, t2) => (none, t2)
    | (some pool, t2) =>
      let s3 := sampleList 3 pool t2
      (some (chosen.2 :: s3.1), s3.2)

/-
The distractor synthesizer of `DetectMultiFormatter.format`
(`src/grounding/format/detect_multi_formatter.py`), embedded up to the
`choices` list of box lists (the final `json.dumps` rendering is dropped).
-/

/-- `add_candidate` of `DetectMultiFormatter.format`: keep a candidate only
if it has the target cardinality and a fresh signature. -/
def addCandidateMulti (targetLen : ℕ) (cand : List Bbox)
    (du : List (List Bbox) × List (List Bbox)) :
    List (List Bbox) × List (List Bbox) :=
  if cand.length == targetLen && !du.2.contains (signatureMulti cand) then
    (du.1 ++ [cand], du.2 ++ [signatureMulti cand])
  else du

/-- The loop over the other labels: offer every other label's full box list
as a candidate. -/
def addOtherLabels (objName : String) (targetLen : ℕ) :
    List (String × List Bbox) →
    List (List Bbox) × List (List Bbox) →
    List (List Bbox) × List (List Bbox)
  | [], du => du
  | (n, bs) :: rest, du =>
    if n == objName then addOtherLabels objName targetLen rest du
    else addOtherLabels objName targetLen rest (addCandidateMulti targetLen bs du)

/-- The inner `while len(candidate) < target_len` loop: extend a candidate
with `random_bbox(random.choice(target_bboxes))` until it has the target
cardinality. -/
def growCand (rbFuel : ℕ) (targetBs : List Bbox) :
    ℕ → List Bbox → Trace → Option (List Bbox) × Trace
  | 0, cand, t => (some cand, t)
  | n + 1, cand, t =>
    match choiceList targetBs t with
    | (none, t1) => (none, t1)
    | (some base, t1) =>
      match randomBbox rbFuel base t1 with
      | (none, t2) => (none, t2)
      | (some b, t2) => growCand rbFuel targetBs n (cand ++ [b]) t2

/-- The bounded attempts loop `while len(distractors) < 3 and attempts < 50`:
keep a random subset of the target boxes and refill with fresh boxes. -/
def multiAttempts (rbFuel : ℕ) (targetBs : List Bbox) :
    ℕ → List (List Bbox) × List (List Bbox) → Trace →
    Option (List (List Bbox) × List (List Bbox)) × Trace
  | 0, du, t => (some du, t)
  | n + 1, du, t =>
    if 3 ≤ du.1.length then (some du, t)
    else
      let tl := targetBs.length
      let kc := if 1 < tl then drawInt 1 (tl - 1) t else (1, t)
      let keep := sampleList kc.1 (List.range tl) kc.2
      let cand0 := keep.1.map (fun i => targetBs.getD i ⟨0, 0, 0, 0⟩)
      match growCand rbFuel targetBs (tl - cand0.length) cand0 keep.2 with
      | (none, t3) => (none, t3)
      | (some cand, t3) =>
        multiAttempts rbFuel targetBs n (addCandidateMulti tl cand du) t3

/-- The unbounded padding loop `while len(distractors) < 8`: manufacture
whole candidates out of `random_bbox` calls.  The source has no attempt cap
here; the embedding spends one unit of fuel per iteration. -/
def multiPad (rbFuel : ℕ) (targetBs : List Bbox) :
    ℕ → List (List Bbox) × List (List Bbox) → Trace →
    Option (List (List Bbox) × List (List Bbox)) × Trace
  | 0, du, t => if 8 ≤ du.1.length then (some du, t) else (none, t)
  | n + 1, du, t =>
    if 8 ≤ du.1.length then (some du, t)
    else
      match growCand rbFuel targetBs targetBs.length [] t with
      | (none, t2) => (none, t2)
      | (some cand, t2) =>
        multiPad rbFuel targetBs n (addCandidateMulti targetBs.length cand du) t2

/-- `DetectMultiFormatter.format`, restricted to the answer choices: the
target box list followed by the 3 sampled distractor box lists. -/
def detectMultiChoices (padFuel rbFuel : ℕ) (d : GroundingData) (t : Trace) :
    Option (List (List Bbox)) × Trace :=
  match (if (d.objs.filter (fun p => decide (1 < p.2.length))).isEmpty then
      d.objs
    else d.objs.filter (fun p => decide (1 < p.2.length))) with
  | [] => (none, t)
  | p0 :: rest =>
    let pick := p0 :: rest
    let s := drawIdx pick.length t
    let chosen := pick.getD s.1 p0
    let targetBs := chosen.2
    let start :=
      addOtherLabels chosen.1 targetBs.length d.objs
        ([], [signatureMulti targetBs])
    match multiAttempts rbFuel targetBs 50 start s.2 with
    | (none, t2) => (none, t2)
    | (some du2, t2) =>
      match multiPad rbFuel targetBs padFuel du2 t2 with
      | (none, t3) => (none, t3)
      | (some du3, t3) =>
        let sel := sampleList 3 du3.1 t3
        (some (targetBs :: sel.1), sel.2)

/-- A record with two labels of which only one carries a box: the stored
`num_objs` counts labels, not labels with boxes. -/
def dGate : GroundingData :=
  ⟨"ds", "7", "img.jpg", [("a", []), ("b", [⟨1/10, 1/10, 1/2, 1/2⟩])], 2, 1⟩

/-- C6 counterexample: the multi-category gate accepts a record that has two
labels but only one label with at least one bounding box, so the gate is not
the predicate claimed. -/
theorem checkEligibleMultiObject_counterexample :
    checkEligibleMultiObject dGate = true ∧
      specMultiCategoryEligible dGate = false := by
  with_unfolding_all decide

/-- C6 amended: the gate returns true iff the stored `num_objs` field is at
least 2; on records whose `num_objs` equals the label count and whose labels
all carry at least one box, this coincides with the claimed predicate. -/
theorem checkEligibleMultiObject_spec (d : GroundingData)
    (hn : d.num_objs = d.objs.length)
    (hb : ∀ p ∈ d.objs, p.2 ≠ []) :
    (checkEligibleMultiObject d = true ↔ 2 ≤ d.num_objs) ∧
    checkEligibleMultiObject d = specMultiCategoryEligible d := by
  constructor
  · simp [checkEligibleMultiObject]
  · have hf : d.objs.filter (fun p => !p.2.isEmpty) = d.objs := by
      apply List.filter_eq_self.mpr
      intro a ha
      simpa [List.isEmpty_iff] using hb a ha
    unfold checkEligibleMultiObject specMultiCategoryEligible
    rw [hn, hf]
    exact decide_eq_decide.mpr (by exact_mod_cast Iff.rfl)

/-- A well-formed two-label record for the C6 witness. -/
def dGateW : GroundingData :=
  ⟨"ds", "8", "img.jpg",
   [("a", [⟨0, 0, 1/2, 1/2⟩]), ("b", [⟨0, 0, 1, 1⟩])], 2, 2⟩

/-- C6 witness: the amended statement applied to a concrete well-formed
record. -/
theorem checkEligibleMultiObject_spec_witness :
    (dGateW.num_objs = dGateW.objs.length ∧ ∀ p ∈ dGateW.objs, p.2 ≠ []) ∧
    ((checkEligibleMultiObject dGateW = true ↔ 2 ≤ dGateW.num_objs) ∧
      checkEligibleMultiObject dGateW = specMultiCategoryEligible dGateW) :=
  ⟨⟨by with_unfolding_all decide, by with_unfolding_all decide⟩,
   checkEligibleMultiObject_spec dGateW (by with_unfolding_all decide)
     (by with_unfolding_all decide)⟩

/-- A box used in the signature counterexample. -/
def bSig1 : Bbox := ⟨1/10, 1/10, 3/10, 3/10⟩

/-- A second, distinct box used in the signature counterexample. -/
def bSig2 : Bbox := ⟨1/2, 1/2, 7/10, 7/10⟩

/-- A box whose first coordinate (0.0004) rounds down to 0.000. -/
def bSig3 : Bbox := ⟨1/2500, 0, 1, 1⟩

/-- A box whose first coordinate (0.0006) rounds up to 0.001, although it is
within 0.001 of `bSig3`. -/
def bSig4 : Bbox := ⟨3/5000, 0, 1, 1⟩

/-- C9 counterexample: the multi-box formatter's signature distinguishes the
same entries in a different order, and the multi-object signature separates
boxes that agree within 0.001 but straddle a 3-decimal rounding boundary, so
signature computation is neither order-independent nor rounding-tolerant in
the claimed sense. -/
theorem signature_counterexample :
    signatureMulti [bSig1, bSig2] ≠ signatureMulti [bSig2, bSig1] ∧
    (bSig4.x1 - bSig3.x1 ≤ 1/1000 ∧ bSig3.x1 - bSig4.x1 ≤ 1/1000 ∧
      bSig3.y1 = bSig4.y1 ∧ bSig3.x2 = bSig4.x2 ∧ bSig3.y2 = bSig4.y2) ∧
    signatureMultiObject [("cat", bSig3)] ≠ signatureMultiObject [("cat", bSig4)] := by
  with_unfolding_all decide

/-- C9 amended: the multi-object signature is order-independent, and two
entry lists get equal signatures exactly when their labels together with
their 3-decimal-rounded boxes agree up to permutation. -/
theorem signatureMultiObject_spec (e1 e2 : List (String × Bbox)) :
    (e1.Perm e2 → signatureMultiObject e1 = signatureMultiObject e2) ∧
    (signatureMultiObject e1 = signatureMultiObject e2 ↔
      (e1.map (fun e => (e.1, roundBbox e.2))).Perm
        (e2.map (fun e => (e.1, roundBbox e.2)))) := by
  constructor
  · intro h
    exact Multiset.coe_eq_coe.mpr (h.map _)
  · exact Multiset.coe_eq_coe

/-- A two-entry list for the C9 witness. -/
def sigE1 : List (String × Bbox) := [("a", bSig1), ("b", bSig2)]

/-- The same entries in the other order. -/
def sigE2 : List (String × Bbox) := [("b", bSig2), ("a", bSig1)]

/-- C9 witness: the amended statement applied to a concrete permuted pair. -/
theorem signatureMultiObject_spec_witness :
    sigE1.Perm sigE2 ∧ signatureMultiObject sigE1 = signatureMultiObject sigE2 :=
  ⟨by with_unfolding_all decide,
   (signatureMultiObject_spec sigE1 sigE2).1 (by with_unfolding_all decide)⟩

/-- The target box of the C2 failing input: jitter draws of 0 reproduce it
exactly, and the reproduced box is rejected (nested in the original). -/
def bC2 : Bbox := ⟨2/5, 2/5, 1/2, 1/2⟩

/-- The C2 failing input: a single label with a single box, eligible for the
multi-box type through the 10% random acceptance, with an empty alternative
pool. -/
def dC2 : GroundingData := ⟨"ds", "2", "img.jpg", [("thing", [bC2])], 1, 1⟩

lemma randomBbox_zero_trace (fuel : ℕ) :
    randomBbox fuel bC2 [] = (none, []) := by
  induction fuel with
  | zero => rfl
  | succ n ih =>
    have hstep : randomBboxStep bC2 [] = (bC2, []) := by
      with_unfolding_all decide
    have hrej : rejectBbox bC2 bC2 = true := by with_unfolding_all decide
    simp only [randomBbox, hstep, hrej, if_true]
    exact ih

lemma growCand_zero_trace (rbFuel : ℕ) :
    growCand rbFuel [bC2] 1 [] [] = (none, []) := by
  have h1 : choiceList [bC2] ([] : Trace) = (some bC2, []) := by
    with_unfolding_all decide
  simp only [growCand, h1, randomBbox_zero_trace rbFuel]

set_option maxRecDepth 8000 in
lemma multiAttempts_zero_trace (rbFuel : ℕ) :
    multiAttempts rbFuel [bC2] 50 ([], [[bC2]]) [] = (some ([], [[bC2]]), []) := by
  with_unfolding_all exact rfl

lemma multiPad_zero_trace (padFuel rbFuel : ℕ) :
    multiPad rbFuel [bC2] padFuel ([], [[bC2]]) [] = (none, []) := by
  cases padFuel with
  | zero => rfl
  | succ n =>
    have hlen : ¬ (8 ≤ ([] : List (List Bbox)).length) := by decide
    simp only [multiPad]
    rw [if_neg hlen]
    have hg : growCand rbFuel [bC2] ([bC2] : List Bbox).length [] [] = (none, []) :=
      growCand_zero_trace rbFuel
    simp only [hg]

set_option maxRecDepth 8000 in
lemma detectMultiChoices_reduces (padFuel rbFuel : ℕ) :
    detectMultiChoices padFuel rbFuel dC2 [] =
      (match multiPad rbFuel [bC2] padFuel ([], [[bC2]]) [] with
        | (none, t3) => (none, t3)
        | (some du3, t3) =>
          let sel := sampleList 3 du3.1 t3
          (some ([bC2] :: sel.1), sel.2)) := by
  with_unfolding_all exact rfl

/-- C2: on the record `dC2` (accepted by the multi-box gate via its 10%
random path) the multi-box distractor synthesis never completes on the
all-zero random stream, whatever bound is put on its total work: the padding
loop keeps calling `random_bbox`, which rejects every candidate and retries
forever.  Total work is therefore not bounded and no 3 distractors are
returned. -/
theorem detectMultiChoices_unbounded (padFuel rbFuel : ℕ) :
    (detectMultiChoices padFuel rbFuel dC2 []).1 = none := by
  rw [detectMultiChoices_reduces padFuel rbFuel,
    multiPad_zero_trace padFuel rbFuel]

/-- The shared box of the C1 failing input: both labels carry this exact
box. -/
def bC1 : Bbox := ⟨1/5, 1/5, 2/5, 2/5⟩

/-- A padding box produced by `random_bbox` during the C1 run. -/
def bC1Pad : Bbox := ⟨1/20, 1/2, 1/2, 19/20⟩

/-- The C1 failing input: two single-box labels whose boxes are identical,
so the other label's box enters the distractor pool unchecked. -/
def dC1 : GroundingData :=
  ⟨"ds", "1", "img.jpg", [("cat", [bC1]), ("dog", [bC1])], 2, 2⟩

/-- Five draws that make one `random_bbox` attempt succeed through the
uniform-resample branch. -/
def padSeg : Trace := [19/20, 1/20, 1/2, 1/2, 19/20]

/-- The random trace of the C1 run: choose the first single-box label, pad
the pool with 7 accepted `random_bbox` calls, then sample the first three
pool entries — the first of which is the other label's copy of the target
box. -/
def traceC1 : Trace :=
  0 :: (padSeg ++ padSeg ++ padSeg ++ padSeg ++ padSeg ++ padSeg ++ padSeg
    ++ [0, 0, 0])

set_option maxRecDepth 20000 in
/-- C1: evaluating the single-box formatter on `dC1` under the attainable
trace `traceC1` yields the choice list `[bC1, bC1, bC1Pad, bC1Pad]`: the
correct box `bC1` (choice 0) appears again among the three distractors, and
two distractors coincide, so the target signature is among the distractor
signatures and the distractor signatures are not pairwise distinct. -/
theorem detectSingleChoices_duplicate_target :
    (detectSingleChoices 1 dC1 traceC1).1 = some [bC1, bC1, bC1Pad, bC1Pad] ∧
    bC1 ∈ ((detectSingleChoices 1 dC1 traceC1).1.getD []).tail := by
  with_unfolding_all decide

/-
The prompt assembler of `src/grounding/pipeline/convert.py`.  A JSON record
becomes `ChatRecord` (absent keys become `none`); `ValueError`s become
values of `ConvErr`.
-/

/-- The `image` field of a record: a single path or a list of paths. -/
inductive ImageField where
  | str (s : String)
  | lst (l : List String)
deriving DecidableEq

/-- The `source_id` field of a record: an integer or a string. -/
inductive IdVal where
  | int (n : ℤ)
  | str (s : String)
deriving DecidableEq

/-- An input record of the conversion stage; fields may be absent. -/
structure ChatRecord where
  choices : Option (List String)
  question : Option String
  image : Option ImageField
  source_id : Option IdVal
deriving DecidableEq

/-- The `ValueError`s `_convert_record` and `_shuffle_choices` can raise. -/
inductive ConvErr where
  | missingChoices
  | tooFewChoices
  | tooManyChoices
  | noCorrectLetter
  | emptyInstruction
deriving DecidableEq

deriving instance DecidableEq for Except

/-- The converted chat example (`conversations` holds the
(speaker, text) turns). -/
structure FinalExample where
  image : List String
  id : IdVal
  conversations : List (String × String)
  image_count : ℕ
deriving DecidableEq

/-- `OPTION_LETTERS`: the 26 upper-case letters. -/
def OPTION_LETTERS : List String :=
  ["A", "B", "C", "D", "E", "F", "G", "H", "I", "J", "K", "L", "M",
   "N", "O", "P", "Q", "R", "S", "T", "U", "V", "W", "X", "Y", "Z"]

/-- `indexed = list(enumerate(choices)); rng.shuffle(indexed)`. -/
def shuffledIndexed (cs : List String) (t : Trace) : List (ℕ × String) :=
  (shuffleList cs.enum t).1

/-- The pairing loop of `_shuffle_choices`: letter by shuffled position. -/
def buildPairs (shuffled : List (ℕ × String)) : List (String × String) :=
  shuffled.enum.map (fun pe => (OPTION_LETTERS.getD pe.1 (""), pe.2.2))

/-- One step of the correct-letter search: remember the letter whenever the
original index is 0. -/
def correctStep (acc : Option String) (pe : ℕ × (ℕ × String)) : Option String :=
  if pe.2.1 = 0 then some (OPTION_LETTERS.getD pe.1 ("")) else acc

/-- The correct-letter search of `_shuffle_choices`. -/
def findCorrect (shuffled : List (ℕ × String)) : Option String :=
  shuffled.enum.foldl correctStep none

/-- `_shuffle_choices`: check the letter supply, shuffle the indexed
choices, assign letters by position, and record the letter now carrying the
originally-first choice. -/
def shuffleChoices (cs : List String) (t : Trace) :
    Except ConvErr (List (String × String) × String) × Trace :=
  if 26 < cs.length then (.error .tooManyChoices, t)
  else
    match findCorrect (shuffledIndexed cs t) with
    | none => (.error .noCorrectLetter, (shuffleList cs.enum t).2)
    | some L =>
      (.ok (buildPairs (shuffledIndexed cs t), L), (shuffleList cs.enum t).2)

/-- `InstructionContext` of `convert.py`. -/
structure InstructionContext where
  letters : List String
  descriptor : String
  lowercaseDescriptor : String

/-- `_letter_instruction`. -/
def letterInstruction (pairs : List (String × String)) : String :=
  if (pairs.map Prod.fst).length = 4 then "A/B/C/D"
  else String.intercalate ("/") (pairs.map Prod.fst)

/-- `_instruction_context`. -/
def instructionContext (pairs : List (String × String)) : InstructionContext :=
  ⟨pairs.map Prod.fst, letterInstruction pairs,
   String.intercalate ("/") ((pairs.map Prod.fst).map (fun s => s.toLower))⟩

/-- `_template_block`. -/
def templateBlock (question : String) (pairs : List (String × String))
    (instr : List String) : String :=
  String.intercalate ("\n")
    ([question.trimRight, "", "Options:"]
      ++ pairs.map (fun p => p.1 ++ (". ") ++ p.2)
      ++ (if instr.isEmpty then [] else [""] ++ instr))

/-- `_template_inline`. -/
def templateInline (question : String) (pairs : List (String × String))
    (instr : List String) : String :=
  String.intercalate ("\n")
    ([question.trimRight]
      ++ (if instr.isEmpty then [] else [""] ++ instr)
      ++ ["", "Options:",
          String.intercalate (" ") (pairs.map (fun p => p.1 ++ (") ") ++ p.2))])

/-- `_template_steps`. -/
def templateSteps (question : String) (pairs : List (String × String))
    (instr : List String) : String :=
  String.intercalate ("\n")
    ([question.trimRight, "", "Consider these candidates:"]
      ++ pairs.map (fun p => ("- Option ") ++ p.1 ++ (": ") ++ p.2)
      ++ (if instr.isEmpty then [] else [""] ++ instr))

/-- `TEMPLATES`. -/
def TEMPLATES : List (String → List (String × String) → List String → String) :=
  [templateBlock, templateInline, templateSteps]

/-- `_style_letter_only` instruction lines. -/
def styleLetterOnlyInstr (ctx : InstructionContext) : List String :=
  ["Choose the best option from the list.",
   ("Respond with only the letter (") ++ ctx.descriptor ++ (").")]

/-- `_style_answer_prefix` instruction lines. -/
def styleAnswerPrefixInstr (ctx : InstructionContext) : List String :=
  ["Select the most accurate choice.",
   ("Reply using the exact format `Answer: X` where X is one of ")
     ++ ctx.descriptor ++ ("."),
   "No additional text is allowed."]

/-- `_style_final_answer` instruction lines. -/
def styleFinalAnswerInstr (ctx : InstructionContext) : List String :=
  ["Pick the option that fits best.",
   ("Return it as `Final answer: X` using one of ") ++ ctx.descriptor ++ (".")]

/-- `_style_lowercase` instruction lines. -/
def styleLowercaseInstr (ctx : InstructionContext) : List String :=
  ["Determine the correct candidate.",
   ("Respond in lowercase using only ") ++ ctx.lowercaseDescriptor ++ (".")]

/-- `_style_option_prefix` instruction lines. -/
def styleOptionPrefixInstr (ctx : InstructionContext) : List String :=
  ["Choose the most suitable option.",
   ("Reply as `Option X` where X is one of ") ++ ctx.descriptor ++ ("."),
   "Do not include any other words."]

/-- A response style: instruction builder plus expected-answer builder. -/
structure ResponseStyle where
  instructionBuilder : InstructionContext → List String
  answerBuilder : String → String

/-- `RESPONSE_STYLES`, in source order. -/
def RESPONSE_STYLES : List ResponseStyle :=
  [⟨styleLetterOnlyInstr, fun letter => letter⟩,
   ⟨styleAnswerPrefixInstr, fun letter => ("Answer: ") ++ letter⟩,
   ⟨styleFinalAnswerInstr, fun letter => ("Final answer: ") ++ letter⟩,
   ⟨styleLowercaseInstr, fun letter => letter.toLower⟩,
   ⟨styleOptionPrefixInstr, fun letter => ("Option ") ++ letter⟩]

/-- Fallback style for out-of-range accesses (never reached: the drawn style
index is reduced modulo the list length). -/
def defaultStyle : ResponseStyle := ⟨styleLetterOnlyInstr, fun letter => letter⟩

/-- `_ensure_list` applied to `record.get("image", [])`. -/
def ensureList : Option ImageField → List String
  | none => []
  | some (.str s) => [s]
  | some (.lst l) => l

/-- The `source_id` conversion of `_convert_record`: keep integers, parse
integer-looking strings, keep other strings; a missing id is stringified to
"None". -/
def convertId : Option IdVal → IdVal
  | some (.int n) => .int n
  | some (.str s) =>
    match s.toInt? with
    | some n => .int n
    | none => .str s
  | none => .str "None"

/-- The body of `_convert_record` after the choice validation: shuffle,
pick a style, pick a template, and assemble the final example. -/
def convertCore (cs : List String) (r : ChatRecord) (t : Trace) :
    Except ConvErr FinalExample × Trace :=
  match shuffleChoices cs t with
  | (.error e, t1) => (.error e, t1)
  | (.ok pl, t1) =>
    let pairs := pl.1
    let correctLetter := pl.2
    let question := (r.question.getD ("")).trim
    let ctx := instructionContext pairs
    let si := drawIdx RESPONSE_STYLES.length t1
    let style := RESPONSE_STYLES.getD si.1 defaultStyle
    let instr := style.instructionBuilder ctx
    if instr.isEmpty then (.error .emptyInstruction, si.2)
    else
      let ti := drawIdx TEMPLATES.length si.2
      let tmpl := TEMPLATES.getD ti.1 templateBlock
      let imageList := ensureList r.image
      (.ok ⟨imageList, convertId r.source_id,
        [("human", tmpl question pairs instr),
         ("gpt", style.answerBuilder correctLetter)],
        imageList.length⟩, ti.2)

/-- `_convert_record`: validate the choices, then assemble. -/
def convertRecord (r : ChatRecord) (t : Trace) :
    Except ConvErr FinalExample × Trace :=
  match r.choices with
  | none => (.error .missingChoices, t)
  | some cs =>
    if cs.isEmpty then (.error .missingChoices, t)
    else if cs.length < 2 then (.error .tooFewChoices, t)
    else convertCore cs r t

lemma getD_cons_eraseIdx_perm {α : Type} :
    ∀ (l : List α) (i : ℕ), i < l.length →
      ∀ x, (l.getD i x :: l.eraseIdx i).Perm l
  | [], i, h, x => absurd h (by simp)
  | a :: as, 0, _, _ => List.Perm.refl _
  | a :: as, i + 1, h, x => by
    show (as.getD i x :: a :: as.eraseIdx i).Perm (a :: as)
    have ih := getD_cons_eraseIdx_perm as i (Nat.lt_of_succ_lt_succ h) x
    exact (List.Perm.swap a (as.getD i x) _).trans (ih.cons a)

lemma sampleList_perm {α : Type} :
    ∀ (k : ℕ) (l : List α) (t : Trace), l.length = k →
      ((sampleList k l t).1).Perm l
  | 0, l, t, h => by
    have hl : l = [] := List.length_eq_zero.mp h
    subst hl
    exact List.Perm.refl _
  | k + 1, [], t, h => by simp at h
  | k + 1, x :: xs, t, h => by
    show (((x :: xs).getD (drawIdx (x :: xs).length t).1 x) ::
      (sampleList k ((x :: xs).eraseIdx (drawIdx (x :: xs).length t).1)
        (drawIdx (x :: xs).length t).2).1).Perm (x :: xs)
    have hilt : (drawIdx (x :: xs).length t).1 < (x :: xs).length :=
      Nat.mod_lt _ (by simp)
    have hrest : ((x :: xs).eraseIdx (drawIdx (x :: xs).length t).1).length = k := by
      rw [List.length_eraseIdx_of_lt hilt]
      simpa using h
    have ih := sampleList_perm k _ ((drawIdx (x :: xs).length t).2) hrest
    exact (ih.cons _).trans (getD_cons_eraseIdx_perm _ _ hilt x)

lemma shuffleList_perm {α : Type} (l : List α) (t : Trace) :
    ((shuffleList l t).1).Perm l :=
  sampleList_perm l.length l t rfl

lemma findFold_keep :
    ∀ (xs : List (ℕ × String)) (n : ℕ) (acc : Option String),
      (∀ e ∈ xs, e.1 ≠ 0) →
      (xs.enumFrom n).foldl correctStep acc = acc
  | [], _, _, _ => rfl
  | x :: rest, n, acc, h => by
    have hx : x.1 ≠ 0 := h x (List.mem_cons_self _ _)
    show (((n, x) :: rest.enumFrom (n + 1)).foldl correctStep acc) = acc
    rw [List.foldl_cons]
    have hstep : correctStep acc (n, x) = acc := by
      unfold correctStep
      rw [if_neg hx]
    rw [hstep]
    exact findFold_keep rest (n + 1) acc (fun e he => h e (List.mem_cons_of_mem _ he))

lemma findFold_last :
    ∀ (xs : List (ℕ × String)) (j : ℕ) (hj : j < xs.length)
      (n : ℕ) (acc : Option String),
      (xs.get ⟨j, hj⟩).1 = 0 →
      (∀ e ∈ xs.drop (j + 1), e.1 ≠ 0) →
      (xs.enumFrom n).foldl correctStep acc =
        some (OPTION_LETTERS.getD (n + j) (""))
  | [], j, hj, _, _, _, _ => absurd hj (by simp)
  | x :: rest, 0, hj, n, acc, h0, hsuf => by
    show (((n, x) :: rest.enumFrom (n + 1)).foldl correctStep acc) = _
    rw [List.foldl_cons]
    have hx : (n, x).2.1 = 0 := h0
    have hstep : correctStep acc (n, x) = some (OPTION_LETTERS.getD n ("")) := by
      unfold correctStep
      rw [if_pos hx]
    rw [hstep, findFold_keep rest (n + 1) _ (by simpa using hsuf), Nat.add_zero]
  | x :: rest, j + 1, hj, n, acc, h0, hsuf => by
    show (((n, x) :: rest.enumFrom (n + 1)).foldl correctStep acc) = _
    rw [List.foldl_cons]
    have hres := findFold_last rest j (Nat.lt_of_succ_lt_succ hj) (n + 1)
      (correctStep acc (n, x)) h0 (by simpa using hsuf)
    rw [hres]
    have harith : n + 1 + j = n + (j + 1) := by omega
    rw [harith]

lemma buildPairs_mem_aux :
    ∀ (xs : List (ℕ × String)) (j : ℕ) (hj : j < xs.length) (n : ℕ),
      (OPTION_LETTERS.getD (n + j) (""), (xs.get ⟨j, hj⟩).2) ∈
        (xs.enumFrom n).map (fun pe => (OPTION_LETTERS.getD pe.1 (""), pe.2.2))
  | [], j, hj, _ => absurd hj (by simp)
  | x :: rest, 0, hj, n => by
    show _ ∈ (((n, x) :: rest.enumFrom (n + 1)).map _)
    rw [List.map_cons, Nat.add_zero]
    exact List.mem_cons_self _ _
  | x :: rest, j + 1, hj, n => by
    show _ ∈ (((n, x) :: rest.enumFrom (n + 1)).map _)
    rw [List.map_cons]
    refine List.mem_cons_of_mem _ ?_
    have hres := buildPairs_mem_aux rest j (Nat.lt_of_succ_lt_succ hj) (n + 1)
    have harith : n + 1 + j = n + (j + 1) := by omega
    rw [harith] at hres
    exact hres

lemma buildPairs_mem (xs : List (ℕ × String)) (j : ℕ) (hj : j < xs.length) :
    (OPTION_LETTERS.getD j (""), (xs.get ⟨j, hj⟩).2) ∈ buildPairs xs := by
  have hres := buildPairs_mem_aux xs j hj 0
  simpa [buildPairs, List.enum_eq_enumFrom] using hres

/-- The core of `_shuffle_choices` correctness: for a nonempty list of at
most 26 choices, the shuffled list carries the originally-first choice at
some position `pos`, the computed answer key is the letter at `pos`, and the
pair (answer key, first choice) occurs among the lettered options. -/
lemma shuffleChoices_spec (cs : List String) (t : Trace)
    (h1 : cs ≠ []) (h26 : cs.length ≤ 26) :
    ∃ (pos : ℕ) (hp : pos < (shuffledIndexed cs t).length),
      (shuffledIndexed cs t).get ⟨pos, hp⟩ = (0, cs.headD ("")) ∧
      (shuffleChoices cs t).1 =
        .ok (buildPairs (shuffledIndexed cs t), OPTION_LETTERS.getD pos ("")) ∧
      (OPTION_LETTERS.getD pos (""), cs.headD ("")) ∈
        buildPairs (shuffledIndexed cs t) := by
  obtain ⟨c0, cs', rfl⟩ := List.exists_cons_of_ne_nil h1
  have hperm : (shuffledIndexed (c0 :: cs') t).Perm ((c0 :: cs').enum) :=
    shuffleList_perm _ t
  have hmem : ((0 : ℕ), c0) ∈ shuffledIndexed (c0 :: cs') t := by
    refine hperm.mem_iff.mpr ?_
    rw [List.enum_cons]
    exact List.mem_cons_self _ _
  obtain ⟨⟨j, hj⟩, hget⟩ := List.mem_iff_get.mp hmem
  have hnd : ((shuffledIndexed (c0 :: cs') t).map Prod.fst).Nodup := by
    have hp2 : ((shuffledIndexed (c0 :: cs') t).map Prod.fst).Perm
        (((c0 :: cs').enum).map Prod.fst) := hperm.map _
    have h3 : (((c0 :: cs').enum).map Prod.fst) =
        List.range (c0 :: cs').length := by
      rw [List.enum_eq_enumFrom, List.enumFrom_map_fst, List.range_eq_range']
    rw [h3] at hp2
    exact hp2.nodup_iff.mpr (List.nodup_range _)
  have huniq : ∀ e ∈ (shuffledIndexed (c0 :: cs') t).drop (j + 1), e.1 ≠ 0 := by
    intro e he h0
    have hin1 : (0 : ℕ) ∈ ((shuffledIndexed (c0 :: cs') t).take (j + 1)).map
        Prod.fst := by
      refine List.mem_map.mpr ⟨(shuffledIndexed (c0 :: cs') t).get ⟨j, hj⟩, ?_,
        by rw [hget]⟩
      have hjt : j < ((shuffledIndexed (c0 :: cs') t).take (j + 1)).length := by
        rw [List.length_take]
        exact lt_min (Nat.lt_succ_self j) hj
      have hcast : ((shuffledIndexed (c0 :: cs') t).take (j + 1)).get ⟨j, hjt⟩ =
          (shuffledIndexed (c0 :: cs') t).get ⟨j, hj⟩ := by
        simp [List.get_eq_getElem, List.getElem_take]
      exact hcast ▸ List.get_mem _ _ _
    have hin2 : (0 : ℕ) ∈ ((shuffledIndexed (c0 :: cs') t).drop (j + 1)).map
        Prod.fst :=
      List.mem_map.mpr ⟨e, he, h0⟩
    have hnod : (((shuffledIndexed (c0 :: cs') t).take (j + 1)).map Prod.fst ++
        ((shuffledIndexed (c0 :: cs') t).drop (j + 1)).map Prod.fst).Nodup := by
      rw [← List.map_append, List.take_append_drop]
      exact hnd
    exact (List.disjoint_of_nodup_append hnod) hin1 hin2
  have hfind : findCorrect (shuffledIndexed (c0 :: cs') t) =
      some (OPTION_LETTERS.getD j ("")) := by
    have hres := findFold_last (shuffledIndexed (c0 :: cs') t) j hj 0 none
      (by rw [hget]) huniq
    simpa [findCorrect, List.enum_eq_enumFrom] using hres
  have hsc : (shuffleChoices (c0 :: cs') t).1 =
      .ok (buildPairs (shuffledIndexed (c0 :: cs') t),
        OPTION_LETTERS.getD j ("")) := by
    unfold shuffleChoices
    rw [if_neg (not_lt.mpr h26), hfind]
  have hbp := buildPairs_mem (shuffledIndexed (c0 :: cs') t) j hj
  rw [hget] at hbp
  exact ⟨j, hj, hget, hsc, hbp⟩

lemma styleInstr_ne (i : ℕ) (ctx : InstructionContext) :
    ((RESPONSE_STYLES.getD i defaultStyle).instructionBuilder ctx).isEmpty = false := by
  match i with
  | 0 => rfl
  | 1 => rfl
  | 2 => rfl
  | 3 => rfl
  | 4 => rfl
  | n + 5 => rfl

lemma styleInstr_ne_nil (i : ℕ) (ctx : InstructionContext) :
    (RESPONSE_STYLES.getD i defaultStyle).instructionBuilder ctx ≠ [] := by
  have h := styleInstr_ne i ctx
  intro hnil
  rw [hnil] at h
  simp at h

lemma convertCore_err (cs : List String) (r : ChatRecord) (t t1 : Trace)
    (e : ConvErr) (h : shuffleChoices cs t = (.error e, t1)) :
    convertCore cs r t = (.error e, t1) := by
  unfold convertCore
  rw [h]

lemma convertCore_ok (cs : List String) (r : ChatRecord) (t t1 : Trace)
    (pairs : List (String × String)) (L : String)
    (h : shuffleChoices cs t = (.ok (pairs, L), t1)) :
    convertCore cs r t =
      (.ok ⟨ensureList r.image, convertId r.source_id,
        [(("human"),
          TEMPLATES.getD (drawIdx TEMPLATES.length
              (drawIdx RESPONSE_STYLES.length t1).2).1 templateBlock
            ((r.question.getD ("")).trim) pairs
            ((RESPONSE_STYLES.getD (drawIdx RESPONSE_STYLES.length t1).1
              defaultStyle).instructionBuilder (instructionContext pairs))),
         (("gpt"),
          (RESPONSE_STYLES.getD (drawIdx RESPONSE_STYLES.length t1).1
            defaultStyle).answerBuilder L)],
        (ensureList r.image).length⟩,
       (drawIdx TEMPLATES.length (drawIdx RESPONSE_STYLES.length t1).2).2) := by
  unfold convertCore
  rw [h]
  dsimp only
  rw [if_neg (by simp only [List.isEmpty_iff]; exact styleInstr_ne_nil _ _)]

lemma convertRecord_valid (r : ChatRecord) (cs : List String) (t : Trace)
    (hc : r.choices = some cs) (h2 : 2 ≤ cs.length) :
    convertRecord r t = convertCore cs r t := by
  unfold convertRecord
  rw [hc]
  dsimp only
  have h1 : cs.isEmpty = false := by
    cases cs with
    | nil => simp at h2
    | cons a l => rfl
  rw [if_neg (by simp [h1]), if_neg (not_lt.mpr h2)]

/-- C3: whenever `_convert_record` succeeds on a record with at least two
choices, the shuffled list carries the originally-first choice at some
position `pos`, the recorded answer key `L` is exactly the letter assigned
to that position, `(L, first choice)` is one of the lettered options, and
the expected assistant response is the chosen response style's answer
builder applied to exactly `L`. -/
theorem convertRecord_answer_key (r : ChatRecord) (cs : List String)
    (t : Trace) (ex : FinalExample)
    (hc : r.choices = some cs) (h2 : 2 ≤ cs.length)
    (hok : (convertRecord r t).1 = .ok ex) :
    ∃ (pos : ℕ) (hp : pos < (shuffledIndexed cs t).length) (k : ℕ) (L : String),
      (shuffledIndexed cs t).get ⟨pos, hp⟩ = (0, cs.headD ("")) ∧
      L = OPTION_LETTERS.getD pos ("") ∧
      (shuffleChoices cs t).1 = .ok (buildPairs (shuffledIndexed cs t), L) ∧
      (L, cs.headD ("")) ∈ buildPairs (shuffledIndexed cs t) ∧
      k < RESPONSE_STYLES.length ∧
      ex.conversations.getLast? =
        some (("gpt"), (RESPONSE_STYLES.getD k defaultStyle).answerBuilder L) := by
  have hne : cs ≠ [] := by
    intro h
    subst h
    simp at h2
  rw [convertRecord_valid r cs t hc h2] at hok
  by_cases h26 : cs.length ≤ 26
  · obtain ⟨pos, hp, hget, hsc, hmemp⟩ := shuffleChoices_spec cs t hne h26
    rcases hpair : shuffleChoices cs t with ⟨res, t1⟩
    have hres : res = .ok (buildPairs (shuffledIndexed cs t),
        OPTION_LETTERS.getD pos ("")) := by
      rw [hpair] at hsc
      exact hsc
    have hcc := convertCore_ok cs r t t1 (buildPairs (shuffledIndexed cs t))
      (OPTION_LETTERS.getD pos ("")) (by rw [hpair, hres])
    rw [hcc] at hok
    dsimp only at hok
    have hex : ex = ⟨ensureList r.image, convertId r.source_id,
        [(("human"),
          TEMPLATES.getD (drawIdx TEMPLATES.length
              (drawIdx RESPONSE_STYLES.length t1).2).1 templateBlock
            ((r.question.getD ("")).trim) (buildPairs (shuffledIndexed cs t))
            ((RESPONSE_STYLES.getD (drawIdx RESPONSE_STYLES.length t1).1
              defaultStyle).instructionBuilder
              (instructionContext (buildPairs (shuffledIndexed cs t))))),
         (("gpt"),
          (RESPONSE_STYLES.getD (drawIdx RESPONSE_STYLES.length t1).1
            defaultStyle).answerBuilder (OPTION_LETTERS.getD pos ("")))],
        (ensureList r.image).length⟩ := by
      have hok2 := hok
      simp only [Except.ok.injEq] at hok2
      exact hok2.symm
    refine ⟨pos, hp, (drawIdx RESPONSE_STYLES.length t1).1,
      OPTION_LETTERS.getD pos (""), hget, rfl, hres, hmemp, ?_, ?_⟩
    · show _ % RESPONSE_STYLES.length < RESPONSE_STYLES.length
      exact Nat.mod_lt _ (by decide)
    · rw [hex]
      rfl
  · exfalso
    have herr : shuffleChoices cs t = (.error .tooManyChoices, t) := by
      unfold shuffleChoices
      rw [if_pos (not_le.mp h26)]
    rw [convertCore_err cs r t t .tooManyChoices herr] at hok
    simp at hok

/-- C5 amended: `_convert_record` fails on a missing or empty `choices`
field, on fewer than two choices, and on more choices than letters; but a
missing `image` field is tolerated — the record converts successfully with
an empty image list and image count 0. -/
theorem convertRecord_malformed (r : ChatRecord) (t : Trace) :
    (r.choices = none → (convertRecord r t).1 = .error .missingChoices) ∧
    (∀ cs, r.choices = some cs → cs.length < 2 →
      ∃ e, (convertRecord r t).1 = .error e) ∧
    (∀ cs, r.choices = some cs → 26 < cs.length →
      (convertRecord r t).1 = .error .tooManyChoices) ∧
    (∀ cs, r.choices = some cs → 2 ≤ cs.length → cs.length ≤ 26 →
      r.image = none →
      ∃ ex, (convertRecord r t).1 = .ok ex ∧
        ex.image = [] ∧ ex.image_count = 0) := by
  refine ⟨?_, ?_, ?_, ?_⟩
  · intro h
    unfold convertRecord
    rw [h]
  · intro cs hc hlen
    unfold convertRecord
    rw [hc]
    dsimp only
    by_cases he : cs.isEmpty = true
    · rw [if_pos he]
      exact ⟨_, rfl⟩
    · rw [if_neg he, if_pos hlen]
      exact ⟨_, rfl⟩
  · intro cs hc hlen
    have h2 : 2 ≤ cs.length := by omega
    rw [convertRecord_valid r cs t hc h2]
    have herr : shuffleChoices cs t = (.error .tooManyChoices, t) := by
      unfold shuffleChoices
      rw [if_pos hlen]
    rw [convertCore_err cs r t t .tooManyChoices herr]
  · intro cs hc h2 h26 him
    have hne : cs ≠ [] := by
      intro h
      subst h
      simp at h2
    obtain ⟨pos, hp, hget, hsc, hmemp⟩ := shuffleChoices_spec cs t hne h26
    rcases hpair : shuffleChoices cs t with ⟨res, t1⟩
    have hres : res = .ok (buildPairs (shuffledIndexed cs t),
        OPTION_LETTERS.getD pos ("")) := by
      rw [hpair] at hsc
      exact hsc
    rw [convertRecord_valid r cs t hc h2,
      convertCore_ok cs r t t1 (buildPairs (shuffledIndexed cs t))
        (OPTION_LETTERS.getD pos ("")) (by rw [hpair, hres])]
    exact ⟨_, rfl, by simp [ensureList, him], by simp [ensureList, him]⟩

/-- The trace of the concrete conversion runs: identity shuffle, first
response style, first template. -/
def traceConv : Trace := [0, 0, 0, 0]

/-- A well-formed two-choice record. -/
def rConv : ChatRecord :=
  ⟨some ["x", "y"], some "Which?", some (.str "im.jpg"), some (.int 3)⟩

/-- The prompt assembled from `rConv` under `traceConv`. -/
def promptConv : String :=
  "Which?\n\nOptions:\nA. x\nB. y\n\nChoose the best option from the list.\nRespond with only the letter (A/B)."

/-- The example converted from `rConv` under `traceConv`. -/
def exConv : FinalExample :=
  ⟨["im.jpg"], .int 3, [("human", promptConv), ("gpt", "A")], 1⟩

set_option maxRecDepth 8000 in
/-- C3 witness: the answer-key property instantiated on a concrete
conversion run. -/
theorem convertRecord_answer_key_witness :
    (rConv.choices = some ["x", "y"] ∧ 2 ≤ (["x", "y"] : List String).length ∧
      (convertRecord rConv traceConv).1 = .ok exConv) ∧
    (∃ (pos : ℕ) (hp : pos < (shuffledIndexed ["x", "y"] traceConv).length)
        (k : ℕ) (L : String),
      (shuffledIndexed ["x", "y"] traceConv).get ⟨pos, hp⟩ =
        (0, (["x", "y"] : List String).headD ("")) ∧
      L = OPTION_LETTERS.getD pos ("") ∧
      (shuffleChoices ["x", "y"] traceConv).1 =
        .ok (buildPairs (shuffledIndexed ["x", "y"] traceConv), L) ∧
      (L, (["x", "y"] : List String).headD ("")) ∈
        buildPairs (shuffledIndexed ["x", "y"] traceConv) ∧
      k < RESPONSE_STYLES.length ∧
      exConv.conversations.getLast? =
        some (("gpt"), (RESPONSE_STYLES.getD k defaultStyle).answerBuilder L)) :=
  ⟨⟨rfl, by decide, by with_unfolding_all decide⟩,
   convertRecord_answer_key rConv ["x", "y"] traceConv exConv rfl (by decide)
     (by with_unfolding_all decide)⟩

/-- A record with two choices and no image, question, or id fields. -/
def rNoImage : ChatRecord := ⟨some ["a", "b"], none, none, none⟩

/-- The prompt assembled from `rNoImage` under the empty trace. -/
def promptNoImage : String :=
  "\n\nOptions:\nA. a\nB. b\n\nChoose the best option from the list.\nRespond with only the letter (A/B)."

/-- The example converted from `rNoImage` under the empty trace. -/
def exNoImage : FinalExample :=
  ⟨[], .str "None", [("human", promptNoImage), ("gpt", "A")], 0⟩

set_option maxRecDepth 8000 in
/-- C5 counterexample: a record whose `image` field is missing converts
successfully (with an empty image list) instead of failing, refuting the
missing-image part of the claim. -/
theorem convertRecord_missing_image_counterexample :
    rNoImage.image = none ∧ (convertRecord rNoImage []).1 = .ok exNoImage :=
  ⟨rfl, by with_unfolding_all decide⟩

/-- C5 witness: the amended statement instantiated on the image-less
record. -/
theorem convertRecord_malformed_witness :
    (rNoImage.choices = some ["a", "b"] ∧
      2 ≤ (["a", "b"] : List String).length ∧
      (["a", "b"] : List String).length ≤ 26 ∧ rNoImage.image = none) ∧
    (∃ ex, (convertRecord rNoImage []).1 = .ok ex ∧
      ex.image = [] ∧ ex.image_count = 0) :=
  ⟨⟨rfl, by decide, by decide, rfl⟩,
   (convertRecord_malformed rNoImage []).2.2.2 ["a", "b"] rfl (by decide)
     (by decide) rfl⟩

/-- C8: the prompt assembler consumes only the record and the explicitly
passed seeded generator (embedded as its draw stream), so two runs on the
same record with the same seed stream agree on everything: the full
converted example, the letter shuffle, the lettered options, and the
recorded correct letter. -/
theorem convertRecord_deterministic (r : ChatRecord) (t₁ t₂ : Trace)
    (h : t₁ = t₂) :
    convertRecord r t₁ = convertRecord r t₂ ∧
    (∀ cs, shuffledIndexed cs t₁ = shuffledIndexed cs t₂ ∧
      shuffleChoices cs t₁ = shuffleChoices cs t₂) := by
  subst h
  exact ⟨rfl, fun _ => ⟨rfl, rfl⟩⟩

/-- C8 witness: determinism instantiated on a concrete record and seed
stream. -/
theorem convertRecord_deterministic_witness :
    traceConv = traceConv ∧
    (convertRecord rConv traceConv = convertRecord rConv traceConv ∧
      (∀ cs, shuffledIndexed cs traceConv = shuffledIndexed cs traceConv ∧
        shuffleChoices cs traceConv = shuffleChoices cs traceConv)) :=
  ⟨rfl, convertRecord_deterministic rConv traceConv traceConv rfl⟩

/-
The quota allocator of `src/grounding/pipeline/generate.py` (`main`).  The
`FormatterSpec` list is a parameter (the source hardcodes the three
formatters in priority order detect_single, detect_multi,
detect_multi_object); the per-name dicts `counts` / `targets` become lists
aligned with the spec list; the output files become per-spec output lists.
-/

/-- A formatter as the allocator sees it: name, eligibility gate, format. -/
structure FmtSpec (α : Type) where
  name : String
  checkEligible : GroundingData → Trace → Bool × Trace
  format : GroundingData → Trace → α × Trace

/-- `unique_id = f"{data.source_dataset}:{data.source_id}"`. -/
def uniqueId (d : GroundingData) : String :=
  d.source_dataset ++ (":") ++ d.source_id

/-- The inner `for spec in formatter_specs` loop: skip specs whose quota is
met, consult the gate of the others in order, and on the first acceptance
format the record and stop.  Returns the assigned index (relative to the
given spec list) with the formatted output. -/
def tryAssignFrom {α : Type} (d : GroundingData) :
    List (FmtSpec α) → List ℕ → List ℕ → Trace → Option (ℕ × α) × Trace
  | [], _, _, t => (none, t)
  | s :: ss, counts, targets, t =>
    if targets.headD 0 ≤ counts.headD 0 then
      let r := tryAssignFrom d ss counts.tail targets.tail t
      (r.1.map (fun p => (p.1 + 1, p.2)), r.2)
    else
      let e := s.checkEligible d t
      if e.1 then
        let f := s.format d e.2
        (some (0, f.1), f.2)
      else
        let r := tryAssignFrom d ss counts.tail targets.tail e.2
        (r.1.map (fun p => (p.1 + 1, p.2)), r.2)

/-- The assignment policy as the specification words it (section 4.4):
assign to the first type in priority order whose quota is unmet and whose
eligibility gate accepts, consulting the gates in order on the threaded
random stream, without formatting anything. -/
def specFirstFit {α : Type} (d : GroundingData) :
    List (FmtSpec α) → List ℕ → List ℕ → Trace → Option ℕ × Trace
  | [], _, _, t => (none, t)
  | s :: ss, counts, targets, t =>
    if targets.headD 0 ≤ counts.headD 0 then
      let r := specFirstFit d ss counts.tail targets.tail t
      (r.1.map (fun i => i + 1), r.2)
    else
      let e := s.checkEligible d t
      if e.1 then (some 0, e.2)
      else
        let r := specFirstFit d ss counts.tail targets.tail e.2
        (r.1.map (fun i => i + 1), r.2)

/-- The allocator's mutable state: per-spec counts, consumed ids, per-spec
outputs, and the random stream. -/
structure AllocState (α : Type) where
  counts : List ℕ
  used : List String
  outs : List (List α)
  tr : Trace

/-- Processing of one record: skip if consumed, otherwise run the inner
loop; on assignment write the output, bump the count, and mark the record
consumed. -/
def processRecord {α : Type} (specs : List (FmtSpec α)) (targets : List ℕ)
    (st : AllocState α) (d : GroundingData) : AllocState α :=
  if uniqueId d ∈ st.used then st
  else
    match tryAssignFrom d specs st.counts targets st.tr with
    | (none, t2) => { st with tr := t2 }
    | (some (i, a), t2) =>
      { counts := st.counts.set i (st.counts.getD i 0 + 1),
        used := uniqueId d :: st.used,
        outs := st.outs.set i (st.outs.getD i [] ++ [a]),
        tr := t2 }

/-- `all(counts[name] >= targets[name] for name in counts)`. -/
def allMet (counts targets : List ℕ) : Bool :=
  (counts.zip targets).all (fun p => decide (p.2 ≤ p.1))

/-- The streaming loop over the input records, with the `continue` for
consumed ids (which skips the all-met check) and the early `break` once
every quota is met. -/
def runAlloc {α : Type} (specs : List (FmtSpec α)) (targets : List ℕ) :
    List GroundingData → AllocState α → AllocState α
  | [], st => st
  | d :: ds, st =>
    if uniqueId d ∈ st.used then runAlloc specs targets ds st
    else
      let st2 := processRecord specs targets st d
      if allMet st2.counts targets then st2
      else runAlloc specs targets ds st2

/-- The `missing` dict computed after the loop: per unmet spec, its
shortfall. -/
def missingOf {α : Type} :
    List (FmtSpec α) → List ℕ → List ℕ → List (String × ℕ)
  | [], _, _ => []
  | s :: ss, counts, targets =>
    if counts.headD 0 < targets.headD 0 then
      (s.name, targets.headD 0 - counts.headD 0) ::
        missingOf ss counts.tail targets.tail
    else missingOf ss counts.tail targets.tail

/-- The generation pass: run the allocator from the empty state, then either
report the per-type shortfalls as a fatal error or return the outputs. -/
def runGenerate {α : Type} (specs : List (FmtSpec α)) (targets : List ℕ)
    (records : List GroundingData) (t : Trace) :
    Except (List (String × ℕ)) (List (List α)) × AllocState α :=
  let st := runAlloc specs targets records
    ⟨List.replicate specs.length 0, [], List.replicate specs.length [], t⟩
  (if (missingOf specs st.counts targets).isEmpty then .ok st.outs
   else .error (missingOf specs st.counts targets), st)

lemma getD_tail {α : Type} (l : List α) (n : ℕ) (dflt : α) :
    l.tail.getD n dflt = l.getD (n + 1) dflt := by
  cases l <;> rfl

lemma headD_eq_getD_zero {α : Type} (l : List α) (dflt : α) :
    l.headD dflt = l.getD 0 dflt := by
  cases l <;> rfl

lemma tryAssign_eq_firstFit {α : Type} (d : GroundingData) :
    ∀ (specs : List (FmtSpec α)) (counts targets : List ℕ) (t : Trace),
      (tryAssignFrom d specs counts targets t).1.map Prod.fst =
        (specFirstFit d specs counts targets t).1
  | [], _, _, _ => rfl
  | s :: ss, counts, targets, t => by
    simp only [tryAssignFrom, specFirstFit]
    by_cases hq : targets.headD 0 ≤ counts.headD 0
    · rw [if_pos hq, if_pos hq]
      dsimp only
      rw [← tryAssign_eq_firstFit d ss counts.tail targets.tail t]
      cases (tryAssignFrom d ss counts.tail targets.tail t).1 <;> rfl
    · rw [if_neg hq, if_neg hq]
      by_cases he : (s.checkEligible d t).1
      · rw [if_pos he, if_pos he]
        rfl
      · rw [if_neg he, if_neg he]
        dsimp only
        rw [← tryAssign_eq_firstFit d ss counts.tail targets.tail
          (s.checkEligible d t).2]
        cases (tryAssignFrom d ss counts.tail targets.tail
          (s.checkEligible d t).2).1 <;> rfl

lemma tryAssign_bounds {α : Type} (d : GroundingData) :
    ∀ (specs : List (FmtSpec α)) (counts targets : List ℕ) (t : Trace)
      (i : ℕ) (a : α) (t2 : Trace),
      tryAssignFrom d specs counts targets t = (some (i, a), t2) →
      i < specs.length ∧ counts.getD i 0 < targets.getD i 0
  | [], _, _, _, _, _, _, h => by simp [tryAssignFrom] at h
  | s :: ss, counts, targets, t, i, a, t2, h => by
    simp only [tryAssignFrom] at h
    by_cases hq : targets.headD 0 ≤ counts.headD 0
    · rw [if_pos hq] at h
      rcases hr : (tryAssignFrom d ss counts.tail targets.tail t) with ⟨ro, rt⟩
      rw [hr] at h
      cases ro with
      | none => simp at h
      | some p =>
        have h2 : (p.1 + 1, p.2) = (i, a) :=
          Option.some.inj (congrArg Prod.fst h)
        have hi : p.1 + 1 = i := congrArg Prod.fst h2
        have hb := tryAssign_bounds d ss counts.tail targets.tail t p.1 p.2 rt
          (by rw [hr])
        subst hi
        refine ⟨by simpa using Nat.succ_lt_succ hb.1, ?_⟩
        rw [← getD_tail counts, ← getD_tail targets]
        exact hb.2
    · rw [if_neg hq] at h
      by_cases he : (s.checkEligible d t).1
      · rw [if_pos he] at h
        have h2 : ((0 : ℕ), (s.format d (s.checkEligible d t).2).1) = (i, a) :=
          Option.some.inj (congrArg Prod.fst h)
        have hi : (0 : ℕ) = i := congrArg Prod.fst h2
        subst hi
        refine ⟨by simp, ?_⟩
        rw [← headD_eq_getD_zero counts, ← headD_eq_getD_zero targets]
        exact not_le.mp hq
      · rw [if_neg he] at h
        rcases hr : (tryAssignFrom d ss counts.tail targets.tail
            (s.checkEligible d t).2) with ⟨ro, rt⟩
        rw [hr] at h
        cases ro with
        | none => simp at h
        | some p =>
          have h2 : (p.1 + 1, p.2) = (i, a) :=
            Option.some.inj (congrArg Prod.fst h)
          have hi : p.1 + 1 = i := congrArg Prod.fst h2
          have hb := tryAssign_bounds d ss counts.tail targets.tail
            (s.checkEligible d t).2 p.1 p.2 rt (by rw [hr])
          subst hi
          refine ⟨by simpa using Nat.succ_lt_succ hb.1, ?_⟩
          rw [← getD_tail counts, ← getD_tail targets]
          exact hb.2

/-- C4: each record is assigned to at most one question type, namely the
spec-side first fit (the first type in priority order whose quota is unmet
and whose gate accepts when consulted on the threaded stream); an assigned
type always has an unmet quota; a consumed record is skipped untouched; and
on assignment only the assigned type's output and count change. -/
theorem allocator_first_fit {α : Type} (specs : List (FmtSpec α))
    (targets counts : List ℕ) (d : GroundingData) (t : Trace) :
    ((tryAssignFrom d specs counts targets t).1.map Prod.fst =
      (specFirstFit d specs counts targets t).1) ∧
    (∀ i a t2, tryAssignFrom d specs counts targets t = (some (i, a), t2) →
      i < specs.length ∧ counts.getD i 0 < targets.getD i 0) ∧
    (∀ st : AllocState α, st.counts = counts → st.tr = t →
      (uniqueId d ∈ st.used → processRecord specs targets st d = st) ∧
      (uniqueId d ∉ st.used →
        ∀ i a t2, tryAssignFrom d specs counts targets t = (some (i, a), t2) →
          (processRecord specs targets st d).outs =
            st.outs.set i (st.outs.getD i [] ++ [a]) ∧
          (∀ j, j ≠ i → (processRecord specs targets st d).outs.getD j [] =
            st.outs.getD j []) ∧
          (processRecord specs targets st d).counts =
            st.counts.set i (st.counts.getD i 0 + 1))) := by
  refine ⟨tryAssign_eq_firstFit d specs counts targets t,
    fun i a t2 h => tryAssign_bounds d specs counts targets t i a t2 h,
    fun st hc ht => ⟨fun hu => ?_, fun hu i a t2 h => ?_⟩⟩
  · unfold processRecord
    rw [if_pos hu]
  · subst hc
    subst ht
    have hred : processRecord specs targets st d =
        { counts := st.counts.set i (st.counts.getD i 0 + 1),
          used := uniqueId d :: st.used,
          outs := st.outs.set i (st.outs.getD i [] ++ [a]),
          tr := t2 } := by
      unfold processRecord
      rw [if_neg hu, h]
    rw [hred]
    refine ⟨rfl, ?_, rfl⟩
    intro j hj
    show (st.outs.set i (st.outs.getD i [] ++ [a])).getD j [] = st.outs.getD j []
    simp only [List.getD_eq_getElem?_getD, List.getElem?_set_ne (Ne.symm hj)]

/-- Scenario-B style formatter list: three always-eligible pure-gate specs
in the priority order of `generate.main`. -/
def specsB : List (FmtSpec String) :=
  [⟨"detect_single", fun _ t => (true, t), fun d t => (d.source_id, t)⟩,
   ⟨"detect_multi", fun _ t => (true, t), fun d t => (d.source_id, t)⟩,
   ⟨"detect_multi_object", fun _ t => (true, t), fun d t => (d.source_id, t)⟩]

/-- A record for the allocator witness. -/
def dB : GroundingData := ⟨"ds", "b1", "img.jpg", [("cat", [⟨0, 0, 1/2, 1/2⟩])], 1, 1⟩

/-- The initial allocator state with Scenario-B targets `{1, 1, 1}`. -/
def stB : AllocState String := ⟨[0, 0, 0], [], [[], [], []], []⟩

/-- C4 witness: the first-fit characterization applied to the Scenario-B
configuration, where the first record goes to `detect_single`. -/
theorem allocator_first_fit_witness :
    (uniqueId dB ∉ stB.used ∧
      tryAssignFrom dB specsB stB.counts [1, 1, 1] stB.tr =
        (some (0, "b1"), [])) ∧
    ((tryAssignFrom dB specsB [0, 0, 0] [1, 1, 1] []).1.map Prod.fst =
      (specFirstFit dB specsB [0, 0, 0] [1, 1, 1] []).1) ∧
    (0 < specsB.length ∧ ([0, 0, 0] : List ℕ).getD 0 0 <
      ([1, 1, 1] : List ℕ).getD 0 0) ∧
    ((processRecord specsB [1, 1, 1] stB dB).outs =
      stB.outs.set 0 (stB.outs.getD 0 [] ++ ["b1"]) ∧
     (∀ j, j ≠ 0 → (processRecord specsB [1, 1, 1] stB dB).outs.getD j [] =
       stB.outs.getD j []) ∧
     (processRecord specsB [1, 1, 1] stB dB).counts =
      stB.counts.set 0 (stB.counts.getD 0 0 + 1)) :=
  ⟨⟨by with_unfolding_all decide, by with_unfolding_all decide⟩,
   (allocator_first_fit specsB [1, 1, 1] [0, 0, 0] dB []).1,
   (allocator_first_fit specsB [1, 1, 1] [0, 0, 0] dB []).2.1 0 "b1" []
     (by with_unfolding_all decide),
   ((allocator_first_fit specsB [1, 1, 1] [0, 0, 0] dB []).2.2 stB rfl rfl).2
     (by with_unfolding_all decide) 0 "b1" [] (by with_unfolding_all decide)⟩

lemma missingOf_empty_iff {α : Type} :
    ∀ (specs : List (FmtSpec α)) (counts targets : List ℕ),
      (missingOf specs counts targets = [] ↔
        ∀ i < specs.length, targets.getD i 0 ≤ counts.getD i 0)
  | [], counts, targets => by simp [missingOf]
  | s :: ss, counts, targets => by
    simp only [missingOf]
    by_cases hm : counts.headD 0 < targets.headD 0
    · rw [if_pos hm]
      constructor
      · intro h
        exact absurd h (by simp)
      · intro h
        exfalso
        have h0 := h 0 (by simp)
        rw [← headD_eq_getD_zero counts, ← headD_eq_getD_zero targets] at h0
        omega
    · rw [if_neg hm]
      rw [missingOf_empty_iff ss counts.tail targets.tail]
      constructor
      · intro h i hi
        cases i with
        | zero =>
          rw [← headD_eq_getD_zero counts, ← headD_eq_getD_zero targets]
          omega
        | succ n =>
          rw [← getD_tail counts, ← getD_tail targets]
          exact h n (by simpa using Nat.lt_of_succ_lt_succ hi)
      · intro h i hi
        rw [getD_tail counts, getD_tail targets]
        exact h (i + 1) (by simpa using Nat.succ_lt_succ hi)

lemma missingOf_mem {α : Type} :
    ∀ (specs : List (FmtSpec α)) (counts targets : List ℕ)
      (i : ℕ) (hi : i < specs.length),
      counts.getD i 0 < targets.getD i 0 →
      ((specs.get ⟨i, hi⟩).name, targets.getD i 0 - counts.getD i 0) ∈
        missingOf specs counts targets
  | [], _, _, i, hi, _ => absurd hi (by simp)
  | s :: ss, counts, targets, 0, hi, hlt => by
    simp only [missingOf]
    rw [← headD_eq_getD_zero counts, ← headD_eq_getD_zero targets] at hlt ⊢
    rw [if_pos hlt]
    exact List.mem_cons_self _ _
  | s :: ss, counts, targets, i + 1, hi, hlt => by
    simp only [missingOf]
    have hrec := missingOf_mem ss counts.tail targets.tail i
      (Nat.lt_of_succ_lt_succ hi)
      (by rw [getD_tail counts, getD_tail targets]; exact hlt)
    rw [getD_tail counts, getD_tail targets] at hrec
    by_cases hm : counts.headD 0 < targets.headD 0
    · rw [if_pos hm]
      exact List.mem_cons_of_mem _ hrec
    · rw [if_neg hm]
      exact hrec

/-- C7: if, at the end of the input stream, some type's quota is unmet, the
generation pass returns the fatal error carrying a nonempty shortfall report
that names every unmet type with its exact shortfall; and a successful
(non-error) result is only possible when every per-type quota is met, so an
under-filled output is never passed off silently as success. -/
theorem runGenerate_quota_failure {α : Type} (specs : List (FmtSpec α))
    (targets : List ℕ) (records : List GroundingData) (t : Trace) :
    (∀ out, (runGenerate specs targets records t).1 = .ok out →
      ∀ i < specs.length,
        targets.getD i 0 ≤
          (runGenerate specs targets records t).2.counts.getD i 0) ∧
    ((∃ i, i < specs.length ∧
        (runGenerate specs targets records t).2.counts.getD i 0 <
          targets.getD i 0) →
      ∃ miss, (runGenerate specs targets records t).1 = .error miss ∧
        miss ≠ [] ∧
        ∀ i (hi : i < specs.length),
          (runGenerate specs targets records t).2.counts.getD i 0 <
            targets.getD i 0 →
          ((specs.get ⟨i, hi⟩).name,
            targets.getD i 0 -
              (runGenerate specs targets records t).2.counts.getD i 0) ∈
            miss) := by
  constructor
  · intro out hok i hi
    by_contra hlt
    push_neg at hlt
    have hne : missingOf specs
        (runGenerate specs targets records t).2.counts targets ≠ [] := by
      intro hnil
      have := (missingOf_empty_iff specs _ targets).mp hnil i hi
      omega
    have : (runGenerate specs targets records t).1 =
        .error (missingOf specs
          (runGenerate specs targets records t).2.counts targets) := by
      unfold runGenerate
      dsimp only
      rw [if_neg (by simpa [List.isEmpty_iff] using hne)]
    rw [hok] at this
    simp at this
  · intro hex
    obtain ⟨i, hi, hlt⟩ := hex
    have hne : missingOf specs
        (runGenerate specs targets records t).2.counts targets ≠ [] := by
      intro hnil
      have := (missingOf_empty_iff specs _ targets).mp hnil i hi
      omega
    refine ⟨missingOf specs
        (runGenerate specs targets records t).2.counts targets, ?_, hne, ?_⟩
    · unfold runGenerate
      dsimp only
      rw [if_neg (by simpa [List.isEmpty_iff] using hne)]
    · intro j hj hjlt
      exact missingOf_mem specs _ targets j hj hjlt

/-- A single never-eligible formatter for the C7 witness. -/
def specsQ : List (FmtSpec ℕ) :=
  [⟨"detect_single", fun _ t => (false, t), fun _ t => (0, t)⟩]

/-- C7 witness: with target 1 and an empty input stream, the pass ends with
count 0 < 1 and the fatal shortfall report `[("detect_single", 1)]`. -/
theorem runGenerate_quota_failure_witness :
    (∃ i, i < specsQ.length ∧
      (runGenerate specsQ [1] [] []).2.counts.getD i 0 <
        ([1] : List ℕ).getD i 0) ∧
    (∃ miss, (runGenerate specsQ [1] [] []).1 = .error miss ∧ miss ≠ [] ∧
      ∀ i (hi : i < specsQ.length),
        (runGenerate specsQ [1] [] []).2.counts.getD i 0 <
          ([1] : List ℕ).getD i 0 →
        ((specsQ.get ⟨i, hi⟩).name,
          ([1] : List ℕ).getD i 0 -
            (runGenerate specsQ [1] [] []).2.counts.getD i 0) ∈ miss) :=
  ⟨⟨0, by decide, by with_unfolding_all decide⟩,
   (runGenerate_quota_failure specsQ [1] [] []).2
     ⟨0, by decide, by with_unfolding_all decide⟩⟩

end Grounding
